import Mathlib

/-!
Shallow embedding of two components of the Forta-Agents repository:

* `native-ice-phishing/src/fetcher.ts` — the `DataFetcher` class: a
  cache-backed, retrying client over an RPC provider and Etherscan-style
  block-explorer APIs;
* `Alpaca-Finance-Agents/Large-Position-Alert/src/agent.ts` — the
  large-position bot's transaction handler.

Remote effects are modelled by explicit oracles: a provider or HTTP call
is a function from the attempt number to the outcome of that attempt
(`none` / `netFail` means the call threw; `softFail` means the explorer
answered with a `NOTOK` / `Query Timeout` / `No transactions found`
message).  Each stateful operation returns, besides its value and the
updated cache state, the number of remote call attempts it issued, the
number of 1-second waits (the `setTimeout` promises) it performed, and the
number of error records it appended to the process-wide error collector
(`ErrorCache.add`).  Operations whose source catches every exception are
modelled with a plain (non-`Except`) result type: in the source they can
never propagate an exception; `getSignature`, which rethrows when its
retries are exhausted, returns an `Except` whose `error` case is the
propagated exception.
-/

namespace Forta

/-- Key-value model of the `lru-cache` instances.  `cacheSet` shadows and
`cacheGet` returns the most recently set binding, which matches the
library's observable get/set/has behaviour; capacity and LRU eviction are
not modelled (the cache claims below are all about runs with no
eviction). -/
abbrev Cache (α : Type) := List (String × α)

def cacheGet {α : Type} (c : Cache α) (k : String) : Option α :=
  (c.find? (fun p => p.1 == k)).map (fun p => p.2)

def cacheSet {α : Type} (c : Cache α) (k : String) (v : α) : Cache α :=
  (k, v) :: c

/-- Result of one `DataFetcher` operation: the returned value, the cache
state after the call, the number of remote call attempts issued, the
number of 1-second waits performed, and the number of error records
appended to the error collector. -/
structure FetchRun (α : Type) (σ : Type) where
  value : α
  state : σ
  calls : Nat
  delays : Nat
  errors : Nat

/-- Outcome of the `while (tries < maxTries)` retry loop shared by
`getCode`, `getStorageSlot` and `getNonce` (fetcher.ts lines 146-163,
179-204, 258-276): up to 3 attempts; after every failed attempt —
including the third — the loop waits 1 second; when the third attempt
fails one error record is added to the error collector. -/
structure Retry3Out (α : Type) where
  value : Option α
  calls : Nat
  delays : Nat
  errors : Nat

def retry3 {α : Type} (oracle : Nat → Option α) : Retry3Out α :=
  match oracle 0 with
  | some v => ⟨some v, 1, 0, 0⟩
  | none =>
    match oracle 1 with
    | some v => ⟨some v, 2, 1, 0⟩
    | none =>
      match oracle 2 with
      | some v => ⟨some v, 3, 2, 0⟩
      | none => ⟨none, 3, 3, 1⟩

/-- `getCode` (fetcher.ts lines 138-168): cached by address; on a miss,
retries `provider.getCode` up to 3 times; the result is cached only when
it is truthy and not `"0x"`; on exhaustion returns `undefined` (`none`)
without caching. -/
def getCode (codeCache : Cache String) (address : String)
    (oracle : Nat → Option String) : FetchRun (Option String) (Cache String) :=
  match cacheGet codeCache address with
  | some v => ⟨some v, codeCache, 0, 0, 0⟩
  | none =>
    let r := retry3 oracle
    match r.value with
    | some c =>
      if c ≠ "" ∧ c ≠ "0x" then
        ⟨some c, cacheSet codeCache address c, r.calls, r.delays, r.errors⟩
      else
        ⟨some c, codeCache, r.calls, r.delays, r.errors⟩
    | none => ⟨none, codeCache, r.calls, r.delays, r.errors⟩

/-- `getStorageSlot` (fetcher.ts lines 170-206): not cached; retries
`provider.getStorageAt` up to 3 times; `undefined` on exhaustion. -/
def getStorageSlot (oracle : Nat → Option String) :
    FetchRun (Option String) Unit :=
  let r := retry3 oracle
  ⟨r.value, (), r.calls, r.delays, r.errors⟩

/-- `isEoa` (fetcher.ts lines 208-220): cached by address in `eoaCache`;
on a miss calls `getCode`; a falsy code (`undefined` or `""`) yields
`undefined` and nothing is cached in `eoaCache`; otherwise caches and
returns `code === "0x"`. -/
def isEoa (eoaCache : Cache Bool) (codeCache : Cache String) (address : String)
    (oracle : Nat → Option String) :
    FetchRun (Option Bool) (Cache Bool × Cache String) :=
  match cacheGet eoaCache address with
  | some b => ⟨some b, (eoaCache, codeCache), 0, 0, 0⟩
  | none =>
    let r := getCode codeCache address oracle
    match r.value with
    | none => ⟨none, (eoaCache, r.state), r.calls, r.delays, r.errors⟩
    | some c =>
      if c = "" then
        ⟨none, (eoaCache, r.state), r.calls, r.delays, r.errors⟩
      else
        ⟨some (c == "0x"), (cacheSet eoaCache address (c == "0x"), r.state),
          r.calls, r.delays, r.errors⟩

/-- `getNonce` (fetcher.ts lines 249-279): cached by address; the local
`nonce` starts at the sentinel `100000`; on success the fetched count is
cached inside the `try` block and returned; on exhaustion the sentinel is
returned and nothing is cached. -/
def getNonce (nonceCache : Cache Nat) (address : String)
    (oracle : Nat → Option Nat) : FetchRun Nat (Cache Nat) :=
  match cacheGet nonceCache address with
  | some v => ⟨v, nonceCache, 0, 0, 0⟩
  | none =>
    let r := retry3 oracle
    match r.value with
    | some n => ⟨n, cacheSet nonceCache address n, r.calls, r.delays, r.errors⟩
    | none => ⟨100000, nonceCache, r.calls, r.delays, r.errors⟩

/-- Retry loop of `getSignature` (fetcher.ts lines 291-302): up to 3
attempts; in the catch block the error is rethrown as soon as
`tries === maxTries`, *before* the 1-second wait, so a fully failed run
performs only 2 waits and propagates the exception
(value `none` here). -/
def signatureRetry (oracle : Nat → Option String) : Option String × Nat × Nat :=
  match oracle 0 with
  | some v => (some v, 1, 0)
  | none =>
    match oracle 1 with
    | some v => (some v, 2, 1)
    | none =>
      match oracle 2 with
      | some v => (some v, 3, 2)
      | none => (none, 3, 2)

/-- `getSignature` (fetcher.ts lines 281-310): cached by selector in
`functionCache`; a response that is truthy and does not start with
`"404"` is cached and returned; a `404`-style (or empty) response yields
`undefined` without caching; exhaustion of the 3 attempts *throws*
(`Except.error`), the only `DataFetcher` operation to do so. -/
def getSignature (functionCache : Cache String) (bytes : String)
    (oracle : Nat → Option String) :
    FetchRun (Except Unit (Option String)) (Cache String) :=
  match cacheGet functionCache bytes with
  | some v => ⟨.ok (some v), functionCache, 0, 0, 0⟩
  | none =>
    let r := signatureRetry oracle
    match r.1 with
    | none => ⟨.error (), functionCache, r.2.1, r.2.2, 0⟩
    | some resp =>
      if resp ≠ "" ∧ ¬ resp.startsWith "404" then
        ⟨.ok (some resp), cacheSet functionCache bytes resp, r.2.1, r.2.2, 0⟩
      else
        ⟨.ok none, functionCache, r.2.1, r.2.2, 0⟩

/-- Retry loop of `getLabel` (fetcher.ts lines 232-244): on a successful
fetch the label of the first event (or `""` when there are no events) is
returned immediately from inside the loop; every caught error waits 1
second, including on the final attempt; after 3 failures the function
falls through to `return ""`. -/
def labelRetry (oracle : Nat → Option (List String)) : String × Nat × Nat :=
  let labelOf : List String → String := fun evs =>
    match evs with
    | [] => ""
    | l :: _ => l
  match oracle 0 with
  | some evs => (labelOf evs, 1, 0)
  | none =>
    match oracle 1 with
    | some evs => (labelOf evs, 2, 1)
    | none =>
      match oracle 2 with
      | some evs => (labelOf evs, 3, 2)
      | none => ("", 3, 3)

/-- `getLabel` (fetcher.ts lines 222-247): restricted to chain ids 1, 137
and 250 (`""` otherwise, with no remote call); not cached; never
throws. -/
def getLabel (chainId : Nat) (oracle : Nat → Option (List String)) :
    FetchRun String Unit :=
  if chainId = 1 ∨ chainId = 137 ∨ chainId = 250 then
    let r := labelRetry oracle
    ⟨r.1, (), r.2.1, r.2.2, 0⟩
  else
    ⟨"", (), 0, 0, 0⟩

/-- `getOwner` (fetcher.ts lines 849-868): cached by the composite key
`"address - block"`.  On a miss it calls the contract's `owner()` once
(`ownerRes`); if that throws it calls `getOwner()` once (`altRes`); if
that also throws the result is `""`.  There is no retry loop, no delay,
and the result — including the empty-string failure result — is always
written to `ownerCache`. -/
def getOwner (ownerCache : Cache String) (address : String) (block : Nat)
    (ownerRes altRes : Option String) : FetchRun String (Cache String) :=
  let key : String := s!"{address} - {block}"
  match cacheGet ownerCache key with
  | some v => ⟨v, ownerCache, 0, 0, 0⟩
  | none =>
    match ownerRes with
    | some o => ⟨o, cacheSet ownerCache key o, 1, 0, 0⟩
    | none =>
      match altRes with
      | some o => ⟨o, cacheSet ownerCache key o, 2, 0, 0⟩
      | none => ⟨"", cacheSet ownerCache key "", 2, 0, 0⟩

/-- Outcome of one explorer-API fetch attempt: `ok` (a JSON response whose
`message` is not a soft failure), `softFail` (a `message` starting with
`"NOTOK"`, `"Query Timeout"` or `"No transactions found"`) or `netFail`
(the fetch threw). -/
inductive ExplorerResp (α : Type) where
  | ok (v : α)
  | softFail
  | netFail
deriving DecidableEq

def ExplorerResp.isOk {α : Type} : ExplorerResp α → Bool
  | .ok _ => true
  | _ => false

/-- The `for (let attempt = 1; attempt <= maxRetries; attempt++)` loop
shared by all explorer-history operations (e.g. fetcher.ts lines
321-355): up to 3 attempts, a soft failure or a thrown fetch retries
*immediately* (these loops contain no `setTimeout`); on the final failed
attempt the operation returns its fallback (`none` here).  Returns the
successful payload (if any) and the number of attempts issued. -/
def explorerRetry {α : Type} (oracle : Nat → ExplorerResp α) : Option α × Nat :=
  match oracle 0 with
  | .ok v => (some v, 1)
  | _ =>
    match oracle 1 with
    | .ok v => (some v, 2)
    | _ =>
      match oracle 2 with
      | .ok v => (some v, 3)
      | _ => (none, 3)

/-- A transaction record as returned by the explorer's account-history
endpoint: `hash`, `from`, `to`, `value`, `blockNumber`.  `value` is kept
as the decimal string the API returns (the source compares it with the
string `"0"` and with other value strings); `blockNumber` is kept as the
number the source obtains via `parseInt`. -/
structure Tx where
  hash : String
  fromAddr : String
  toAddr : String
  value : String
  blockNumber : Nat
deriving DecidableEq, Inhabited

/-- Modelled from the spec: the configuration constant
`toTxCountThreshold` lives in `native-ice-phishing/src/utils.ts`, which
is not under `src/`; the spec only says histories are "bounded by a
configurable offset".  Its concrete value is irrelevant to every claim
below. -/
def toTxCountThreshold : Nat := 500

/-- `getAddressInfo` (fetcher.ts lines 312-368): on retry exhaustion
returns `[null, null]`; on success counts the transactions of `txTo`'s
history that involve `txFrom` (other than the current hash) and returns
`[numberOfInteractions === 0, history.length > toTxCountThreshold]`. -/
def getAddressInfo (txFrom : String) (hash : String)
    (oracle : Nat → ExplorerResp (List Tx)) : Option Bool × Option Bool :=
  match (explorerRetry oracle).1 with
  | none => (none, none)
  | some txs =>
    let numberOfInteractions :=
      (txs.filter (fun tx =>
        tx.toAddr == txFrom || (tx.fromAddr == txFrom && tx.hash != hash))).length
    (some (numberOfInteractions == 0),
     some (decide (toTxCountThreshold < txs.length)))

/-- `haveInteractedAgain` (fetcher.ts lines 370-441): on retry exhaustion
returns `true`; on success returns whether some victim sent more than one
transaction to the attacker in the fetched history. -/
def haveInteractedAgain (attacker : String) (victims : List String)
    (oracle : Nat → ExplorerResp (List Tx)) : Bool :=
  match (explorerRetry oracle).1 with
  | none => true
  | some txs =>
    victims.any (fun victim =>
      2 ≤ (txs.filter (fun tx =>
        tx.toAddr == attacker && tx.fromAddr == victim)).length)

/-- The per-victim counterparty list built by
`haveInteractedWithSameAddress` (fetcher.ts lines 497-503): the `to`
addresses of the victim's history, excluding the attacker and the victim
itself, deduplicated (`Array.from(new Set(toAddresses))`). -/
def counterparties (attacker victim : String) (txs : List Tx) : List String :=
  ((txs.filter (fun tx =>
    !(tx.toAddr == attacker || tx.toAddr == victim))).map (fun tx => tx.toAddr)).dedup

/-- `haveInteractedWithSameAddress` (fetcher.ts lines 443-530): one
explorer fetch per victim (`oracle v` is victim `v`'s attempt oracle).
A victim whose retries are exhausted sets the result flag to `true` and
contributes no entry to `victimInteractions`; afterwards a frequency map
counts, for every counterparty address, the distinct fetched victims that
interacted with it, and the flag is also set when some address reaches
`Math.ceil(victims.length / 2)` distinct victims. -/
def haveInteractedWithSameAddress (attacker : String) (victims : List String)
    (oracle : String → Nat → ExplorerResp (List Tx)) : Bool :=
  let histories : String → Option (List Tx) := fun v => (explorerRetry (oracle v)).1
  let anyFail := victims.any (fun v => (histories v).isNone)
  let fetched := (victims.filter (fun v => (histories v).isSome)).dedup
  let inter : String → List String := fun v =>
    counterparties attacker v ((histories v).getD [])
  let allAddrs := (fetched.map inter).flatten.dedup
  let majority := (victims.length + 1) / 2
  anyFail ||
    allAddrs.any (fun a =>
      decide (majority ≤ (fetched.filter (fun v => a ∈ inter v)).length))

/-- `isRecentlyInvolvedInTransfer` (fetcher.ts lines 532-587): on retry
exhaustion returns `true`; on success returns whether some other
transaction with a nonzero value sits in the 10 blocks preceding
`blockNumber`. -/
def isRecentlyInvolvedInTransfer (hash : String) (blockNumber : Nat)
    (oracle : Nat → ExplorerResp (List Tx)) : Bool :=
  match (explorerRetry oracle).1 with
  | none => true
  | some txs =>
    txs.any (fun tx =>
      tx.hash != hash && tx.value != "0"
        && decide (blockNumber - 10 ≤ tx.blockNumber)
        && decide (tx.blockNumber < blockNumber))

/-- The duplicate-sender test of `hasValidEntries` (fetcher.ts lines
634-639): some entry's `from` first occurs at an earlier index
(`findIndex(...) !== j`). -/
def hasDupFrom (prev : List Tx) : Bool :=
  (List.range prev.length).any (fun j =>
    match prev.get? j with
    | some p => prev.findIdx (fun o => o.fromAddr == p.fromAddr) != j
    | none => false)

/-- The per-window test of `hasValidEntries` (fetcher.ts lines 640-642):
no zero-value transfer and no duplicate sender among the 3 preceding
entries. -/
def windowOk (prev : List Tx) : Bool :=
  !(prev.any (fun p => p.value == "0")) && !(hasDupFrom prev)

/-- The `forEach` body of `hasValidEntries` (fetcher.ts lines 628-644)
applied to a successfully fetched history: true when some entry matches
the target hash at an index `i ≥ 3` whose 3 preceding entries
(`slice(i-3, i)`) contain no zero-value transfer and no duplicate
sender. -/
def hasValidEntriesOn (entries : List Tx) (hash : String) : Bool :=
  (List.range entries.length).any (fun i =>
    match entries.get? i with
    | some e =>
      e.hash == hash && decide (3 ≤ i)
        && windowOk ((entries.drop (i - 3)).take 3)
    | none => false)

/-- `hasValidEntries` (fetcher.ts lines 589-647): on retry exhaustion
returns `false`; otherwise applies `hasValidEntriesOn` to the fetched
history. -/
def hasValidEntries (hash : String)
    (oracle : Nat → ExplorerResp (List Tx)) : Bool :=
  match (explorerRetry oracle).1 with
  | none => false
  | some entries => hasValidEntriesOn entries hash

/-- The `latestTo` scan of `getAddresses` (fetcher.ts lines 690-704):
from the highest index whose entry matches the target hash, scan
downwards for the nearest earlier entry sent by `address` and take its
`to`; `""` when nothing matches. -/
def latestToVal (txs : List Tx) (address hash : String) : String :=
  match (List.range txs.length).reverse.find? (fun i =>
      ((txs.get? i).map (fun t => t.hash == hash)).getD false) with
  | none => ""
  | some i =>
    match (List.range i).reverse.find? (fun j =>
        ((txs.get? j).map (fun t => t.fromAddr == address)).getD false) with
    | none => ""
    | some j => ((txs.get? j).map (fun t => t.toAddr)).getD ""

/-- `getAddresses` (fetcher.ts lines 649-749): retry exhaustion of either
fetch returns `[null, null]`; on success, if the first history entry was
received by `address` its sender is the funding address, otherwise the
internal-transactions endpoint (`oracleInt`) supplies it.  Indexing
`result.result[0]` on an empty successful result would throw a
`TypeError` in the source, modelled as `Except.error`. -/
def getAddresses (address hash : String)
    (oracle oracleInt : Nat → ExplorerResp (List Tx)) :
    Except Unit (Option String × Option String) :=
  match (explorerRetry oracle).1 with
  | none => .ok (none, none)
  | some txs =>
    match txs with
    | [] => .error ()
    | t0 :: _ =>
      let latestTo := latestToVal txs address hash
      if t0.toAddr == address then
        .ok (some t0.fromAddr, some latestTo)
      else
        match (explorerRetry oracleInt).1 with
        | none => .ok (none, none)
        | some [] => .error ()
        | some (i0 :: _) => .ok (some i0.fromAddr, some latestTo)

/-- `getSourceCode` (fetcher.ts lines 763-802): retry exhaustion returns
`""`; on success returns `result.result[0].SourceCode` (a `TypeError` —
`Except.error` — on an empty successful result). -/
def getSourceCode (oracle : Nat → ExplorerResp (List String)) :
    Except Unit String :=
  match (explorerRetry oracle).1 with
  | none => .ok ""
  | some [] => .error ()
  | some (s :: _) => .ok s

/-- `getNumberOfLogs` (fetcher.ts lines 804-847): retry exhaustion —
whether the final attempt hit a soft failure or a thrown fetch — returns
the constant `10`; on success returns `result.result.length`. -/
def getNumberOfLogs (oracle : Nat → ExplorerResp (List Unit)) : Nat :=
  match (explorerRetry oracle).1 with
  | none => 10
  | some l => l.length

/-- `isValueUnique` (fetcher.ts lines 870-918): retry exhaustion returns
`false`; on success returns whether no other transaction in the history
carries the same value string. -/
def isValueUnique (hash value : String)
    (oracle : Nat → ExplorerResp (List Tx)) : Bool :=
  match (explorerRetry oracle).1 with
  | none => false
  | some txs =>
    !(txs.any (fun tx => tx.hash != hash && tx.value == value))

/-! Embedding of `Alpaca-Finance-Agents/Large-Position-Alert/src/agent.ts`. -/

namespace LargePosition

/-- Severity taxonomy of the alert schema (only `Info` is used here). -/
inductive FindingSeverity where
  | Info
deriving DecidableEq

inductive FindingType where
  | Info
deriving DecidableEq

/-- An emitted alert record; the three `metadata` entries of the source
(`positionId`, `loanAmount`, `vault`) are fields. -/
structure Finding where
  name : String
  description : String
  alertId : String
  severity : FindingSeverity
  ty : FindingType
  positionId : String
  loanAmount : String
  vault : String
deriving DecidableEq

/-- A decoded `Work(uint256 id, uint256 loan)` event from a transaction
log: the emitting contract address and the two arguments as the handler
sees them after `parseInt`. -/
structure WorkEvent where
  address : String
  id : Nat
  loan : Nat
deriving DecidableEq

/-- JS `Map` lookup over the constructor's entry list: setting the same
key twice keeps the value of the *last* entry, so `get` returns the last
binding of the key. -/
def vaultsMapGet (m : List (String × Nat)) (k : String) : Option Nat :=
  (m.reverse.find? (fun p => p.1 == k)).map (fun p => p.2)

/-- `VAULTS_MAP` (agent.ts lines 9-16).  Keys are the source's addresses
after `.toLowerCase()`.  The thresholds are the runtime values of the
source's `BigInt(<number literal>)` expressions: the number literal is an
IEEE-754 double first, so `100000000000000000000000` (1e23, the
BUSD/USDT/TUSD threshold) is actually `99999999999999991611392` and
`200000000000000000000000` (2e23, ALPACA) is `199999999999999983222784`;
`30000000000000000000` (30 ETH) and `3000000000000000000` (3 BTCB) are
exactly representable.  The BTCB entry is overwritten by the USDT entry,
which reuses the same vault address. -/
def VAULTS_MAP : List (String × Nat) :=
  [("0x7c9e73d4c71dae564d41f78d56439bb4ba87592f", 99999999999999991611392),
   ("0xbff4a34a4644a113e8200d7f1d79b3555f723afe", 30000000000000000000),
   ("0x08fc9ba2cac74742177e0afc3dc8aed6961c24e7", 3000000000000000000),
   ("0x08fc9ba2cac74742177e0afc3dc8aed6961c24e7", 99999999999999991611392),
   ("0xf1be8ecc990cbcb90e166b71e368299f0116d421", 199999999999999983222784),
   ("0x3282d2a151ca00bfe7ed17aa16e42880248cd3cd", 99999999999999991611392)]

/-- `createFinding` (agent.ts lines 20-33). -/
def createFinding (posId : Nat) (loanAmount : Nat) (vaultAddress : String) :
    Finding :=
  { name := "Large Position Event"
    description := "Large Position Has Been Taken"
    alertId := "ALPACA-1"
    severity := .Info
    ty := .Info
    positionId := toString posId
    loanAmount := toString loanAmount
    vault := vaultAddress }

/-- The handler returned by `provideHandleTransaction` (agent.ts lines
35-54), applied to the transaction's decoded `Work` events: an event
emits a finding when its vault address is in the map with a truthy
(nonzero) threshold and its loan exceeds that threshold. -/
def handleTransaction (vaultsMap : List (String × Nat))
    (workEvents : List WorkEvent) : List Finding :=
  workEvents.foldl (fun findings ev =>
    match vaultsMapGet vaultsMap ev.address with
    | some t =>
      if t ≠ 0 ∧ t < ev.loan then
        findings ++ [createFinding ev.id ev.loan ev.address]
      else findings
    | none => findings) []

end LargePosition

/-! Helper lemmas. -/

theorem cacheGet_cacheSet {α : Type} (c : Cache α) (k k' : String) (v : α) :
    cacheGet (cacheSet c k v) k' = if k = k' then some v else cacheGet c k' := by
  by_cases h : k = k' <;> simp [cacheGet, cacheSet, List.find?_cons, h]

theorem isOk_false_cases {α : Type} {r : ExplorerResp α}
    (h : r.isOk = false) : r = .softFail ∨ r = .netFail := by
  cases r <;> simp [ExplorerResp.isOk] at h ⊢

theorem explorerRetry_exhaustion {α : Type} (oracle : Nat → ExplorerResp α)
    (h : ∀ i, i < 3 → (oracle i).isOk = false) :
    explorerRetry oracle = (none, 3) := by
  rcases isOk_false_cases (h 0 (by norm_num)) with e0 | e0 <;>
    rcases isOk_false_cases (h 1 (by norm_num)) with e1 | e1 <;>
      rcases isOk_false_cases (h 2 (by norm_num)) with e2 | e2 <;>
        simp [explorerRetry, e0, e1, e2]

theorem retry3_exhaustion {α : Type} (oracle : Nat → Option α)
    (h : ∀ i, i < 3 → oracle i = none) :
    retry3 oracle = ⟨none, 3, 3, 1⟩ := by
  simp [retry3, h 0 (by norm_num), h 1 (by norm_num), h 2 (by norm_num)]

theorem signatureRetry_exhaustion (oracle : Nat → Option String)
    (h : ∀ i, i < 3 → oracle i = none) :
    signatureRetry oracle = (none, 3, 2) := by
  simp [signatureRetry, h 0 (by norm_num), h 1 (by norm_num), h 2 (by norm_num)]

theorem labelRetry_exhaustion (oracle : Nat → Option (List String))
    (h : ∀ i, i < 3 → oracle i = none) :
    labelRetry oracle = ("", 3, 3) := by
  simp [labelRetry, h 0 (by norm_num), h 1 (by norm_num), h 2 (by norm_num)]

theorem retry3_first_success {α : Type} (oracle : Nat → Option α) (v : α)
    (h : oracle 0 = some v) : retry3 oracle = ⟨some v, 1, 0, 0⟩ := by
  simp [retry3, h]

theorem signatureRetry_first_success (oracle : Nat → Option String) (v : String)
    (h : oracle 0 = some v) : signatureRetry oracle = (some v, 1, 0) := by
  simp [signatureRetry, h]

/-! Claim theorems. -/

/-- C10: when all 3 explorer attempts of `getNumberOfLogs` fail — a
transport error or a soft-failure message on the final attempt — it
returns the constant `10` (not `undefined`, an empty count, or an
exception), a nonzero sentinel that downstream log-count comparisons
treat as a real count of 10. -/
theorem getNumberOfLogs_all_fail (oracle : Nat → ExplorerResp (List Unit))
    (h : ∀ i, i < 3 → (oracle i).isOk = false) :
    getNumberOfLogs oracle = 10 := by
  simp [getNumberOfLogs, explorerRetry_exhaustion oracle h]

theorem getNumberOfLogs_all_fail_witness :
    getNumberOfLogs (fun _ => ExplorerResp.softFail) = 10 :=
  getNumberOfLogs_all_fail (fun _ => ExplorerResp.softFail)
    (fun _ _ => rfl)

/-- C2: for every address whose remote call fails on all 3 attempts,
`getCode` returns `undefined`, `getNonce` returns the sentinel `100000`,
`getStorageSlot` returns `undefined`, and each of the three appends
exactly one error record to the process-wide error collector.  The
source wraps every attempt in a catch-all `try`, so no exception reaches
the caller — accordingly the model's result types are plain values, not
`Except`. -/
theorem provider_ops_retry_exhaustion
    (codeCache : Cache String) (nonceCache : Cache Nat) (address : String)
    (oC : Nat → Option String) (oN : Nat → Option Nat) (oS : Nat → Option String)
    (hmissC : cacheGet codeCache address = none)
    (hmissN : cacheGet nonceCache address = none)
    (hC : ∀ i, i < 3 → oC i = none)
    (hN : ∀ i, i < 3 → oN i = none)
    (hS : ∀ i, i < 3 → oS i = none) :
    (getCode codeCache address oC).value = none ∧
    (getCode codeCache address oC).errors = 1 ∧
    (getNonce nonceCache address oN).value = 100000 ∧
    (getNonce nonceCache address oN).errors = 1 ∧
    (getStorageSlot oS).value = none ∧
    (getStorageSlot oS).errors = 1 := by
  simp [getCode, getNonce, getStorageSlot, hmissC, hmissN,
    retry3_exhaustion _ hC, retry3_exhaustion _ hN, retry3_exhaustion _ hS]

theorem provider_ops_retry_exhaustion_witness :
    (getCode [] "0xa" (fun _ => none)).value = none ∧
    (getCode [] "0xa" (fun _ => none)).errors = 1 ∧
    (getNonce [] "0xa" (fun _ => none)).value = 100000 ∧
    (getNonce [] "0xa" (fun _ => none)).errors = 1 ∧
    (getStorageSlot (fun _ => none)).value = none ∧
    (getStorageSlot (fun _ => none)).errors = 1 :=
  provider_ops_retry_exhaustion [] [] "0xa"
    (fun _ => none) (fun _ => none) (fun _ => none)
    rfl rfl (fun _ _ => rfl) (fun _ _ => rfl) (fun _ _ => rfl)

/-- C1, counterexample: the claim that no cache ever holds a failed
lookup result is false for `ownerCache`.  Running `getOwner` on an empty
cache with both contract calls throwing returns the empty-string failure
result *and* inserts it into `ownerCache` (fetcher.ts line 866 caches
unconditionally), so the failed lookup is not re-attempted for this
(address, block) key. -/
theorem ownerCache_caches_failure :
    (getOwner [] "0xaaa" 5 none none).value = "" ∧
    cacheGet (getOwner [] "0xaaa" 5 none none).state "0xaaa - 5" = some "" := by
  exact ⟨rfl, by decide⟩

/-- C1, amended: the success-only caching invariant holds for the four
other caches.  Any binding readable from `codeCache`, `nonceCache`,
`functionCache` or `eoaCache` after an operation either was already
there or records a confirmed successful remote response: a fetched
nonempty code other than `"0x"`, a fetched transaction count, a fetched
non-404 signature, or an EOA bit derived from a non-failed `getCode`
result.  (`ownerCache` is the exception: see the counterexample.) -/
theorem success_only_caching
    (codeCache : Cache String) (nonceCache : Cache Nat)
    (functionCache : Cache String) (eoaCache : Cache Bool)
    (address bytes k : String)
    (oC : Nat → Option String) (oN : Nat → Option Nat) (oSig : Nat → Option String)
    (v : String) (n : Nat) (b : Bool) :
    (cacheGet (getCode codeCache address oC).state k = some v →
      cacheGet codeCache k = some v ∨
        ((retry3 oC).value = some v ∧ v ≠ "" ∧ v ≠ "0x" ∧ k = address)) ∧
    (cacheGet (getNonce nonceCache address oN).state k = some n →
      cacheGet nonceCache k = some n ∨
        ((retry3 oN).value = some n ∧ k = address)) ∧
    (cacheGet (getSignature functionCache bytes oSig).state k = some v →
      cacheGet functionCache k = some v ∨
        ((signatureRetry oSig).1 = some v ∧ v ≠ "" ∧ ¬ v.startsWith "404" ∧
          k = bytes)) ∧
    (cacheGet (isEoa eoaCache codeCache address oC).state.1 k = some b →
      cacheGet eoaCache k = some b ∨
        (∃ c, (getCode codeCache address oC).value = some c ∧ c ≠ "" ∧
          b = (c == "0x") ∧ k = address)) := by
  refine ⟨?_, ?_, ?_, ?_⟩
  · intro hmem
    cases hc : cacheGet codeCache address with
    | some w => simp only [getCode, hc] at hmem; exact Or.inl hmem
    | none =>
      cases hr : (retry3 oC).value with
      | none => simp only [getCode, hc, hr] at hmem; exact Or.inl hmem
      | some c =>
        by_cases hcv : c ≠ "" ∧ c ≠ "0x"
        · simp only [getCode, hc, hr, if_pos hcv] at hmem
          rw [cacheGet_cacheSet] at hmem
          by_cases hk : address = k
          · rw [if_pos hk] at hmem
            injection hmem with hv
            subst hv
            exact Or.inr ⟨rfl, hcv.1, hcv.2, hk.symm⟩
          · rw [if_neg hk] at hmem; exact Or.inl hmem
        · simp only [getCode, hc, hr, if_neg hcv] at hmem; exact Or.inl hmem
  · intro hmem
    cases hc : cacheGet nonceCache address with
    | some w => simp only [getNonce, hc] at hmem; exact Or.inl hmem
    | none =>
      cases hr : (retry3 oN).value with
      | none => simp only [getNonce, hc, hr] at hmem; exact Or.inl hmem
      | some m =>
        simp only [getNonce, hc, hr] at hmem
        rw [cacheGet_cacheSet] at hmem
        by_cases hk : address = k
        · rw [if_pos hk] at hmem
          injection hmem with hv
          subst hv
          exact Or.inr ⟨rfl, hk.symm⟩
        · rw [if_neg hk] at hmem; exact Or.inl hmem
  · intro hmem
    cases hc : cacheGet functionCache bytes with
    | some w => simp only [getSignature, hc] at hmem; exact Or.inl hmem
    | none =>
      cases hr : (signatureRetry oSig).1 with
      | none => simp only [getSignature, hc, hr] at hmem; exact Or.inl hmem
      | some resp =>
        by_cases hrv : resp ≠ "" ∧ ¬ resp.startsWith "404"
        · simp only [getSignature, hc, hr, if_pos hrv] at hmem
          rw [cacheGet_cacheSet] at hmem
          by_cases hk : bytes = k
          · rw [if_pos hk] at hmem
            injection hmem with hv
            subst hv
            exact Or.inr ⟨rfl, hrv.1, hrv.2, hk.symm⟩
          · rw [if_neg hk] at hmem; exact Or.inl hmem
        · simp only [getSignature, hc, hr, if_neg hrv] at hmem; exact Or.inl hmem
  · intro hmem
    cases hc : cacheGet eoaCache address with
    | some w => simp only [isEoa, hc] at hmem; exact Or.inl hmem
    | none =>
      cases hr : (getCode codeCache address oC).value with
      | none => simp only [isEoa, hc, hr] at hmem; exact Or.inl hmem
      | some c =>
        by_cases hce : c = ""
        · simp only [isEoa, hc, hr, if_pos hce] at hmem; exact Or.inl hmem
        · simp only [isEoa, hc, hr, if_neg hce] at hmem
          rw [cacheGet_cacheSet] at hmem
          by_cases hk : address = k
          · rw [if_pos hk] at hmem
            injection hmem with hv
            subst hv
            exact Or.inr ⟨c, rfl, hce, rfl, hk.symm⟩
          · rw [if_neg hk] at hmem; exact Or.inl hmem

theorem success_only_caching_witness :
    cacheGet ([] : Cache String) "0xa" = some "0xdead" ∨
      ((retry3 (fun _ => some "0xdead")).value = some "0xdead" ∧
        "0xdead" ≠ "" ∧ "0xdead" ≠ "0x" ∧ "0xa" = "0xa") :=
  (success_only_caching [] [] [] [] "0xa" "0x12345678" "0xa"
      (fun _ => some "0xdead") (fun _ => some 7) (fun _ => some "transfer(address)")
      "0xdead" 7 false).1 (by decide)

/-- C5, counterexample: the idempotence claim is false for `getCode` on
an address whose code is `"0x"`.  Both calls succeed on their first
attempt, yet `"0x"` is never cached (fetcher.ts line 164), so the two
calls issue two remote calls in total, not one. -/
theorem getCode_0x_refetches :
    (getCode [] "0xb" (fun _ => some "0x")).calls = 1 ∧
    (getCode (getCode [] "0xb" (fun _ => some "0x")).state "0xb"
        (fun _ => some "0x")).calls = 1 ∧
    ¬ ((getCode [] "0xb" (fun _ => some "0x")).calls +
        (getCode (getCode [] "0xb" (fun _ => some "0x")).state "0xb"
          (fun _ => some "0x")).calls = 1) := by
  refine ⟨by decide, by decide, by decide⟩

/-- C5, amended: calling a cached fetch operation twice with the same key
and no intervening eviction issues exactly one remote call in total
*provided the first call's result was actually cached*: for `getCode` a
fetched code that is nonempty and not `"0x"`; for `isEoa` a nonempty
fetched code; for `getNonce` a fetched count; for `getSignature` a
nonempty non-404 response; for `getOwner` any first-accessor result
(`getOwner` caches even failures).  In each case the first call issues
one remote call, and the second call issues none and returns the cached
value.  A `"0x"` code (and a 404 signature response) is not cached and
is re-fetched on every call. -/
theorem cached_ops_idempotent
    (codeCache : Cache String) (nonceCache : Cache Nat)
    (functionCache : Cache String) (eoaCache : Cache Bool)
    (ownerCache : Cache String) (address bytes w : String) (block : Nat)
    (oC oC' : Nat → Option String) (oN oN' : Nat → Option Nat)
    (oSig oSig' : Nat → Option String) (altRes ownerRes' altRes' : Option String)
    (c : String) (n : Nat) (s : String) :
    (cacheGet codeCache address = none → oC 0 = some c → c ≠ "" → c ≠ "0x" →
      (getCode codeCache address oC).calls = 1 ∧
      (getCode (getCode codeCache address oC).state address oC').calls = 0 ∧
      (getCode (getCode codeCache address oC).state address oC').value = some c) ∧
    (cacheGet eoaCache address = none → cacheGet codeCache address = none →
      oC 0 = some c → c ≠ "" →
      (isEoa eoaCache codeCache address oC).calls = 1 ∧
      (isEoa (isEoa eoaCache codeCache address oC).state.1
          (isEoa eoaCache codeCache address oC).state.2 address oC').calls = 0 ∧
      (isEoa (isEoa eoaCache codeCache address oC).state.1
          (isEoa eoaCache codeCache address oC).state.2 address oC').value =
        some (c == "0x")) ∧
    (cacheGet nonceCache address = none → oN 0 = some n →
      (getNonce nonceCache address oN).calls = 1 ∧
      (getNonce (getNonce nonceCache address oN).state address oN').calls = 0 ∧
      (getNonce (getNonce nonceCache address oN).state address oN').value = n) ∧
    (cacheGet functionCache bytes = none → oSig 0 = some s → s ≠ "" →
      ¬ s.startsWith "404" →
      (getSignature functionCache bytes oSig).calls = 1 ∧
      (getSignature (getSignature functionCache bytes oSig).state bytes
          oSig').calls = 0 ∧
      (getSignature (getSignature functionCache bytes oSig).state bytes
          oSig').value = .ok (some s)) ∧
    (cacheGet ownerCache (s!"{address} - {block}") = none →
      (getOwner ownerCache address block (some w) altRes).calls = 1 ∧
      (getOwner (getOwner ownerCache address block (some w) altRes).state
          address block ownerRes' altRes').calls = 0 ∧
      (getOwner (getOwner ownerCache address block (some w) altRes).state
          address block ownerRes' altRes').value = w) := by
  refine ⟨?_, ?_, ?_, ?_, ?_⟩
  · intro hmiss h0 hne hnx
    have hcache : cacheGet (cacheSet codeCache address c) address = some c := by
      rw [cacheGet_cacheSet, if_pos rfl]
    simp [getCode, hmiss, retry3_first_success oC c h0, hne, hnx, hcache]
  · intro hmissE hmissC h0 hne
    have hcode :
        getCode codeCache address oC =
          ⟨some c, cacheSet codeCache address c, 1, 0, 0⟩ ∨
        getCode codeCache address oC = ⟨some c, codeCache, 1, 0, 0⟩ := by
      by_cases hnx : c = "0x"
      · right
        simp [getCode, hmissC, retry3_first_success oC c h0, hnx]
      · left
        simp [getCode, hmissC, retry3_first_success oC c h0, hne, hnx]
    have hget : cacheGet (cacheSet eoaCache address (c == "0x")) address =
        some (c == "0x") := by
      rw [cacheGet_cacheSet, if_pos rfl]
    rcases hcode with hcode | hcode <;>
      simp [isEoa, hmissE, hcode, hne, hget]
  · intro hmiss h0
    have hcache : cacheGet (cacheSet nonceCache address n) address = some n := by
      rw [cacheGet_cacheSet, if_pos rfl]
    simp [getNonce, hmiss, retry3_first_success oN n h0, hcache]
  · intro hmiss h0 hne h404
    have hcache : cacheGet (cacheSet functionCache bytes s) bytes = some s := by
      rw [cacheGet_cacheSet, if_pos rfl]
    simp [getSignature, hmiss, signatureRetry_first_success oSig s h0, hne,
      h404, hcache]
  · intro hmiss
    have hcache :
        cacheGet (cacheSet ownerCache (s!"{address} - {block}") w)
          (s!"{address} - {block}") = some w := by
      rw [cacheGet_cacheSet, if_pos rfl]
    simp [getOwner, hmiss, hcache]

theorem cached_ops_idempotent_witness :
    (getNonce [] "0xa" (fun _ => some 9)).calls = 1 ∧
    (getNonce (getNonce [] "0xa" (fun _ => some 9)).state "0xa"
        (fun _ => some 42)).calls = 0 ∧
    (getNonce (getNonce [] "0xa" (fun _ => some 9)).state "0xa"
        (fun _ => some 42)).value = 9 :=
  (cached_ops_idempotent [] [] [] [] [] "0xa" "0x12345678" "0xowner" 3
      (fun _ => some "0xdead") (fun _ => some "0xdead")
      (fun _ => some 9) (fun _ => some 42)
      (fun _ => some "transfer(address)") (fun _ => some "transfer(address)")
      none none none "0xdead" 9 "transfer(address)").2.2.1 rfl rfl

/-- C6, counterexample: the uniform-retry claim is false for `getOwner`.
On a cache miss with both contract calls failing, `getOwner` issues one
attempt of `owner()` and one of `getOwner()` — 2 remote calls in total,
not 3 attempts of anything — and performs no 1-second delay (fetcher.ts
lines 849-868 contain no retry loop and no `setTimeout`). -/
theorem getOwner_no_retry :
    (getOwner [] "0xa" 1 none none).calls = 2 ∧
    (getOwner [] "0xa" 1 none none).delays = 0 ∧
    ¬ (3 ≤ (getOwner [] "0xa" 1 none none).calls) ∧
    ¬ (1 ≤ (getOwner [] "0xa" 1 none none).delays) := by
  refine ⟨by decide, by decide, by decide, by decide⟩

/-- C6, amended: the retry policy by operation.  The provider-backed
operations (`getCode`, `getNonce`, `getStorageSlot`) attempt at most 3
times and, on a fully failed run, make exactly 3 attempts with a
1-second wait after each failed attempt; `getSignature` makes 3 attempts
with 2 waits (it rethrows before the final wait); `getLabel` makes 3
attempts with 3 waits; the explorer-history operations make at most 3 —
and on a fully failed run exactly 3 — attempts but retry immediately,
with no delay; and `getOwner` is the exception to the uniform policy:
one attempt per accessor, 2 remote calls in total on a miss with both
accessors failing, and no delay. -/
theorem retry_policy_by_operation :
    (∀ o : Nat → Option String, (retry3 o).calls ≤ 3) ∧
    (∀ o : Nat → Option String, (∀ i, i < 3 → o i = none) →
      (retry3 o).calls = 3 ∧ (retry3 o).delays = 3) ∧
    (∀ o : Nat → Option String, (∀ i, i < 3 → o i = none) →
      signatureRetry o = (none, 3, 2)) ∧
    (∀ o : Nat → Option (List String), (∀ i, i < 3 → o i = none) →
      labelRetry o = ("", 3, 3)) ∧
    (∀ o : Nat → ExplorerResp (List Tx), (explorerRetry o).2 ≤ 3) ∧
    (∀ o : Nat → ExplorerResp (List Tx), (∀ i, i < 3 → (o i).isOk = false) →
      explorerRetry o = (none, 3)) ∧
    (∀ (ownerCache : Cache String) (a : String) (blk : Nat),
      cacheGet ownerCache (s!"{a} - {blk}") = none →
      (getOwner ownerCache a blk none none).calls = 2 ∧
      (getOwner ownerCache a blk none none).delays = 0) := by
  refine ⟨?_, ?_, ?_, ?_, ?_, ?_, ?_⟩
  · intro o
    cases e0 : o 0 <;> cases e1 : o 1 <;> cases e2 : o 2 <;>
      simp [retry3, e0, e1, e2]
  · intro o h
    simp [retry3_exhaustion o h]
  · intro o h
    exact signatureRetry_exhaustion o h
  · intro o h
    exact labelRetry_exhaustion o h
  · intro o
    cases e0 : o 0 <;> cases e1 : o 1 <;> cases e2 : o 2 <;>
      simp [explorerRetry, e0, e1, e2]
  · intro o h
    exact explorerRetry_exhaustion o h
  · intro ownerCache a blk hmiss
    simp [getOwner, hmiss]

theorem retry_policy_by_operation_witness :
    ((retry3 (fun _ => (none : Option String))).calls = 3 ∧
      (retry3 (fun _ => (none : Option String))).delays = 3) ∧
    signatureRetry (fun _ => none) = (none, 3, 2) ∧
    labelRetry (fun _ => none) = ("", 3, 3) ∧
    explorerRetry (fun _ => (ExplorerResp.netFail : ExplorerResp (List Tx))) =
      (none, 3) ∧
    ((getOwner [] "0xa" 7 none none).calls = 2 ∧
      (getOwner [] "0xa" 7 none none).delays = 0) :=
  ⟨retry_policy_by_operation.2.1 _ (fun _ _ => rfl),
   retry_policy_by_operation.2.2.1 _ (fun _ _ => rfl),
   retry_policy_by_operation.2.2.2.1 _ (fun _ _ => rfl),
   retry_policy_by_operation.2.2.2.2.2.1 _ (fun _ _ => rfl),
   retry_policy_by_operation.2.2.2.2.2.2 [] "0xa" 7 rfl⟩

theorem getCode_value (codeCache : Cache String) (address : String)
    (oracle : Nat → Option String)
    (hmiss : cacheGet codeCache address = none) :
    (getCode codeCache address oracle).value = (retry3 oracle).value := by
  simp only [getCode, hmiss]
  cases h : (retry3 oracle).value with
  | none => rfl
  | some c => by_cases hc : c ≠ "" ∧ c ≠ "0x" <;> simp [hc]

/-- C4: with no cached entry for the address, `isEoa` returns `true` iff
the fetched code is exactly `"0x"`, `false` when the code is nonempty
bytecode, and `undefined` when the code fetch failed after retries;
moreover, for an address with nonempty fetched bytecode the result is
`false` and a repeated `isEoa` call for the same address is served from
`eoaCache`, issuing no second remote call. -/
theorem isEoa_spec
    (eoaCache : Cache Bool) (codeCache : Cache String) (address : String)
    (oracle oracle' : Nat → Option String) (c : String)
    (hmissE : cacheGet eoaCache address = none)
    (hmissC : cacheGet codeCache address = none) :
    ((retry3 oracle).value = some c → c ≠ "" →
      ((isEoa eoaCache codeCache address oracle).value = some true ↔
        c = "0x")) ∧
    ((retry3 oracle).value = some c → c ≠ "" → c ≠ "0x" →
      (isEoa eoaCache codeCache address oracle).value = some false) ∧
    ((retry3 oracle).value = none →
      (isEoa eoaCache codeCache address oracle).value = none) ∧
    ((retry3 oracle).value = some c → c ≠ "" → c ≠ "0x" →
      (isEoa (isEoa eoaCache codeCache address oracle).state.1
          (isEoa eoaCache codeCache address oracle).state.2 address
          oracle').value = some false ∧
      (isEoa (isEoa eoaCache codeCache address oracle).state.1
          (isEoa eoaCache codeCache address oracle).state.2 address
          oracle').calls = 0) := by
  have hval := getCode_value codeCache address oracle hmissC
  refine ⟨?_, ?_, ?_, ?_⟩
  · intro hr hne
    rw [hr] at hval
    simp [isEoa, hmissE, hval, hne]
  · intro hr hne hnx
    rw [hr] at hval
    have : (c == "0x") = false := by simp [hnx]
    simp [isEoa, hmissE, hval, hne, this]
  · intro hr
    rw [hr] at hval
    simp [isEoa, hmissE, hval]
  · intro hr hne hnx
    rw [hr] at hval
    have hbx : (c == "0x") = false := by simp [hnx]
    have h1 : isEoa eoaCache codeCache address oracle =
        ⟨some false, (cacheSet eoaCache address false,
          (getCode codeCache address oracle).state),
          (getCode codeCache address oracle).calls,
          (getCode codeCache address oracle).delays,
          (getCode codeCache address oracle).errors⟩ := by
      simp [isEoa, hmissE, hval, hne, hbx]
    have hget : cacheGet (cacheSet eoaCache address false) address =
        some false := by
      rw [cacheGet_cacheSet, if_pos rfl]
    rw [h1]
    simp [isEoa, hget]

theorem isEoa_spec_witness :
    (isEoa [] [] "0xa" (fun _ => some "0x6080")).value = some false :=
  (isEoa_spec [] [] "0xa" (fun _ => some "0x6080") (fun _ => some "0x6080")
      "0x6080" rfl rfl).2.1 rfl (by decide) (by decide)

/-- C3: when every attempt of the remote call fails, `getSignature`
propagates the failure (`Except.error`), and it is the only `DataFetcher`
operation to do so: every other operation resolves on retry exhaustion
(or, for `getOwner`, exhaustion of its two single-attempt accessors) to
its sentinel, empty, or conservative fallback value.  The conjunction
enumerates every remote-calling operation of the class. -/
theorem getSignature_only_thrower
    (codeCache : Cache String) (nonceCache : Cache Nat)
    (functionCache : Cache String) (eoaCache : Cache Bool)
    (ownerCache : Cache String)
    (address bytes attacker hash value : String)
    (chainId block blockNumber : Nat) (victims : List String)
    (oC : Nat → Option String) (oN : Nat → Option Nat)
    (oS : Nat → Option String) (oSig : Nat → Option String)
    (oL : Nat → Option (List String))
    (oE oEI : Nat → ExplorerResp (List Tx))
    (oV : String → Nat → ExplorerResp (List Tx))
    (oSrc : Nat → ExplorerResp (List String))
    (oLogs : Nat → ExplorerResp (List Unit))
    (hmissC : cacheGet codeCache address = none)
    (hmissN : cacheGet nonceCache address = none)
    (hmissF : cacheGet functionCache bytes = none)
    (hmissE : cacheGet eoaCache address = none)
    (hmissO : cacheGet ownerCache (s!"{address} - {block}") = none)
    (hC : ∀ i, i < 3 → oC i = none)
    (hN : ∀ i, i < 3 → oN i = none)
    (hS : ∀ i, i < 3 → oS i = none)
    (hSig : ∀ i, i < 3 → oSig i = none)
    (hL : ∀ i, i < 3 → oL i = none)
    (hE : ∀ i, i < 3 → (oE i).isOk = false)
    (hV : ∀ v, ∀ i, i < 3 → (oV v i).isOk = false)
    (hSrc : ∀ i, i < 3 → (oSrc i).isOk = false)
    (hLogs : ∀ i, i < 3 → (oLogs i).isOk = false) :
    (getSignature functionCache bytes oSig).value = .error () ∧
    (getCode codeCache address oC).value = none ∧
    (getStorageSlot oS).value = none ∧
    (isEoa eoaCache codeCache address oC).value = none ∧
    (getNonce nonceCache address oN).value = 100000 ∧
    (getLabel chainId oL).value = "" ∧
    getAddressInfo address hash oE = (none, none) ∧
    haveInteractedAgain attacker victims oE = true ∧
    (victims ≠ [] → haveInteractedWithSameAddress attacker victims oV = true) ∧
    isRecentlyInvolvedInTransfer hash blockNumber oE = true ∧
    hasValidEntries hash oE = false ∧
    getAddresses address hash oE oEI = .ok (none, none) ∧
    getSourceCode oSrc = .ok "" ∧
    getNumberOfLogs oLogs = 10 ∧
    isValueUnique hash value oE = false ∧
    (getOwner ownerCache address block none none).value = "" := by
  have hEx := explorerRetry_exhaustion oE hE
  refine ⟨?_, ?_, ?_, ?_, ?_, ?_, ?_, ?_, ?_, ?_, ?_, ?_, ?_, ?_, ?_, ?_⟩
  · simp [getSignature, hmissF, signatureRetry_exhaustion oSig hSig]
  · simp [getCode, hmissC, retry3_exhaustion oC hC]
  · simp [getStorageSlot, retry3_exhaustion oS hS]
  · have := getCode_value codeCache address oC hmissC
    rw [retry3_exhaustion oC hC] at this
    simp [isEoa, hmissE, this]
  · simp [getNonce, hmissN, retry3_exhaustion oN hN]
  · by_cases h : chainId = 1 ∨ chainId = 137 ∨ chainId = 250 <;>
      simp [getLabel, h, labelRetry_exhaustion oL hL]
  · simp [getAddressInfo, hEx]
  · simp [haveInteractedAgain, hEx]
  · intro hvne
    cases victims with
    | nil => exact absurd rfl hvne
    | cons v vs =>
      simp [haveInteractedWithSameAddress,
        explorerRetry_exhaustion (oV v) (hV v)]
  · simp [isRecentlyInvolvedInTransfer, hEx]
  · simp [hasValidEntries, hEx]
  · simp [getAddresses, hEx]
  · simp [getSourceCode, explorerRetry_exhaustion oSrc hSrc]
  · simp [getNumberOfLogs, explorerRetry_exhaustion oLogs hLogs]
  · simp [isValueUnique, hEx]
  · simp [getOwner, hmissO]

theorem getSignature_only_thrower_witness :
    (getSignature [] "0x12345678" (fun _ => none)).value = .error () ∧
    (getCode [] "0xa" (fun _ => none)).value = none ∧
    (getStorageSlot (fun _ => none)).value = none ∧
    (isEoa [] [] "0xa" (fun _ => none)).value = none ∧
    (getNonce [] "0xa" (fun _ => none)).value = 100000 ∧
    (getLabel 1 (fun _ => none)).value = "" ∧
    getAddressInfo "0xa" "0xh" (fun _ => ExplorerResp.netFail) = (none, none) ∧
    haveInteractedAgain "0xk" ["0xv"] (fun _ => ExplorerResp.netFail) = true ∧
    (["0xv"] ≠ ([] : List String) →
      haveInteractedWithSameAddress "0xk" ["0xv"]
        (fun _ _ => ExplorerResp.netFail) = true) ∧
    isRecentlyInvolvedInTransfer "0xh" 20 (fun _ => ExplorerResp.netFail) =
      true ∧
    hasValidEntries "0xh" (fun _ => ExplorerResp.netFail) = false ∧
    getAddresses "0xa" "0xh" (fun _ => ExplorerResp.netFail)
      (fun _ => ExplorerResp.netFail) = .ok (none, none) ∧
    getSourceCode (fun _ => ExplorerResp.netFail) = .ok "" ∧
    getNumberOfLogs (fun _ => ExplorerResp.netFail) = 10 ∧
    isValueUnique "0xh" "77" (fun _ => ExplorerResp.netFail) = false ∧
    (getOwner [] "0xa" 3 none none).value = "" :=
  getSignature_only_thrower [] [] [] [] [] "0xa" "0x12345678" "0xk" "0xh" "77"
    1 3 20 ["0xv"] (fun _ => none) (fun _ => none) (fun _ => none)
    (fun _ => none) (fun _ => none) (fun _ => ExplorerResp.netFail)
    (fun _ => ExplorerResp.netFail) (fun _ _ => ExplorerResp.netFail)
    (fun _ => ExplorerResp.netFail) (fun _ => ExplorerResp.netFail)
    rfl rfl rfl rfl (by decide) (fun _ _ => rfl) (fun _ _ => rfl)
    (fun _ _ => rfl) (fun _ _ => rfl) (fun _ _ => rfl) (fun _ _ => rfl)
    (fun _ _ _ => rfl) (fun _ _ => rfl) (fun _ _ => rfl)

/-- C8: on a successfully fetched history in which the target hash
occurs only at index `i ≥ 3`, if any of the 3 entries immediately
preceding it carries the value string `"0"` (a zero-value transfer),
`hasValidEntries` returns `false` for that target hash — even when the
window is otherwise eligible. -/
theorem hasValidEntries_zero_value_window
    (entries : List Tx) (hash : String) (i : Nat)
    (oracle : Nat → ExplorerResp (List Tx))
    (h0 : oracle 0 = .ok entries)
    (hge : 3 ≤ i)
    (huniq : ∀ j, j < entries.length → j ≠ i →
      (entries.getD j default).hash ≠ hash)
    (hzero : ∃ p ∈ (entries.drop (i - 3)).take 3, p.value = "0") :
    hasValidEntries hash oracle = false := by
  have hretr : (explorerRetry oracle).1 = some entries := by
    simp [explorerRetry, h0]
  simp only [hasValidEntries, hretr]
  rw [hasValidEntriesOn, List.any_eq_false]
  intro j hjmem
  rw [List.mem_range] at hjmem
  cases hj' : entries.get? j with
  | none => simp
  | some e' =>
    by_cases hji : j = i
    · subst hji
      have hz : ((entries.drop (j - 3)).take 3).any
          (fun p => p.value == "0") = true := by
        rcases hzero with ⟨p, hp, hpv⟩
        exact List.any_eq_true.mpr ⟨p, hp, by simp [hpv]⟩
      simp [windowOk, hz]
    · have hne := huniq j hjmem hji
      have he' : entries.getD j default = e' := by
        rw [List.getD_eq_getElem?_getD, ← List.get?_eq_getElem?, hj']
        rfl
      rw [he'] at hne
      have hb : (e'.hash == hash) = false := by simp [hne]
      simp [hb]

theorem hasValidEntries_zero_value_window_witness :
    hasValidEntries "ht"
      (fun _ => ExplorerResp.ok
        [⟨"h0", "a0", "b0", "5", 1⟩, ⟨"h1", "a1", "b1", "0", 2⟩,
         ⟨"h2", "a2", "b2", "7", 3⟩, ⟨"ht", "a3", "b3", "9", 4⟩]) = false :=
  hasValidEntries_zero_value_window
    [⟨"h0", "a0", "b0", "5", 1⟩, ⟨"h1", "a1", "b1", "0", 2⟩,
     ⟨"h2", "a2", "b2", "7", 3⟩, ⟨"ht", "a3", "b3", "9", 4⟩]
    "ht" 3 _ rfl (by decide) (by decide) (by decide)

/-- C7: for `haveInteractedWithSameAddress` with all per-victim fetches
succeeding and distinct victims: with 4 victims, if two distinct victims
share a counterparty — a `to` address distinct from the attacker and
from the victim itself — the majority threshold `ceil(4/2) = 2` is met
and the result is `true`; and whenever no counterparty is shared by at
least `ceil(victims.length / 2)` victims the result is `false`. -/
theorem hiwsa_majority
    (attacker : String) (victims : List String)
    (oracle : String → Nat → ExplorerResp (List Tx))
    (hsucc : ∀ v ∈ victims, ((explorerRetry (oracle v)).1).isSome = true)
    (hnodup : victims.Nodup) :
    (victims.length = 4 →
      ∀ a v1 v2, v1 ∈ victims → v2 ∈ victims → v1 ≠ v2 →
        a ∈ counterparties attacker v1 (((explorerRetry (oracle v1)).1).getD []) →
        a ∈ counterparties attacker v2 (((explorerRetry (oracle v2)).1).getD []) →
        haveInteractedWithSameAddress attacker victims oracle = true) ∧
    ((∀ a, (victims.filter (fun v =>
        a ∈ counterparties attacker v
          (((explorerRetry (oracle v)).1).getD []))).length <
          (victims.length + 1) / 2) →
      haveInteractedWithSameAddress attacker victims oracle = false) := by
  have hfilter : victims.filter
      (fun v => ((explorerRetry (oracle v)).1).isSome) = victims :=
    List.filter_eq_self.mpr (fun v hv => hsucc v hv)
  have hfetched : (victims.filter
      (fun v => ((explorerRetry (oracle v)).1).isSome)).dedup = victims := by
    rw [hfilter, List.dedup_eq_self.mpr hnodup]
  have hanyfail : victims.any
      (fun v => ((explorerRetry (oracle v)).1).isNone) = false := by
    rw [List.any_eq_false]
    intro v hv
    have h := hsucc v hv
    cases ho : (explorerRetry (oracle v)).1 with
    | none => rw [ho] at h; simp at h
    | some x => simp [ho]
  constructor
  · intro hlen a v1 v2 hv1 hv2 hv12 ha1 ha2
    simp only [haveInteractedWithSameAddress, hfetched, hanyfail,
      Bool.false_or]
    apply List.any_eq_true.mpr
    refine ⟨a, ?_, ?_⟩
    · rw [List.mem_dedup, List.mem_flatten]
      exact ⟨counterparties attacker v1 (((explorerRetry (oracle v1)).1).getD []),
        List.mem_map_of_mem _ hv1, ha1⟩
    · have h1 : v1 ∈ victims.filter (fun v =>
          a ∈ counterparties attacker v
            (((explorerRetry (oracle v)).1).getD [])) :=
        List.mem_filter.mpr ⟨hv1, by simp [ha1]⟩
      have h2 : v2 ∈ victims.filter (fun v =>
          a ∈ counterparties attacker v
            (((explorerRetry (oracle v)).1).getD [])) :=
        List.mem_filter.mpr ⟨hv2, by simp [ha2]⟩
      have hsub : ({v1, v2} : Finset String) ⊆
          (victims.filter (fun v =>
            a ∈ counterparties attacker v
              (((explorerRetry (oracle v)).1).getD []))).toFinset := by
        intro x hx
        rcases Finset.mem_insert.mp hx with rfl | hx
        · exact List.mem_toFinset.mpr h1
        · rw [Finset.mem_singleton] at hx
          subst hx
          exact List.mem_toFinset.mpr h2
      have hcard : 2 ≤ (victims.filter (fun v =>
          a ∈ counterparties attacker v
            (((explorerRetry (oracle v)).1).getD []))).toFinset.card := by
        have hle := Finset.card_le_card hsub
        rwa [Finset.card_insert_of_not_mem (by simp [hv12]),
          Finset.card_singleton] at hle
      have hlenf : 2 ≤ (victims.filter (fun v =>
          a ∈ counterparties attacker v
            (((explorerRetry (oracle v)).1).getD []))).length :=
        le_trans hcard (List.toFinset_card_le _)
      simp only [hlen]
      norm_num
      exact hlenf
  · intro h
    simp only [haveInteractedWithSameAddress, hfetched, hanyfail,
      Bool.false_or]
    rw [List.any_eq_false]
    intro a hmem
    simp only [decide_eq_true_eq]
    exact not_le.mpr (h a)

/-- Concrete oracle for the majority scenario: victims `0xv1` and `0xv2`
each interacted with `0xshared`; the other two victims have empty
histories. -/
def c7oracle : String → Nat → ExplorerResp (List Tx) :=
  fun v _ =>
    if v = "0xv1" then .ok [⟨"h1", "0xw", "0xshared", "5", 1⟩]
    else if v = "0xv2" then .ok [⟨"h2", "0xw", "0xshared", "6", 2⟩]
    else .ok []

theorem hiwsa_majority_witness :
    haveInteractedWithSameAddress "0xatk" ["0xv1", "0xv2", "0xv3", "0xv4"]
      c7oracle = true :=
  (hiwsa_majority "0xatk" ["0xv1", "0xv2", "0xv3", "0xv4"] c7oracle
      (by decide) (by decide)).1 rfl "0xshared" "0xv1" "0xv2"
    (by decide) (by decide) (by decide) (by decide) (by decide)

namespace LargePosition

theorem vaults_pos (k : String) (t : Nat)
    (h : vaultsMapGet VAULTS_MAP k = some t) : t ≠ 0 := by
  unfold vaultsMapGet at h
  cases hf : VAULTS_MAP.reverse.find? (fun p => p.1 == k) with
  | none => rw [hf] at h; simp at h
  | some pr =>
    rw [hf] at h
    have h : pr.2 = t := by simpa using h
    have hmem := List.mem_of_find?_eq_some hf
    rw [List.mem_reverse] at hmem
    simp only [VAULTS_MAP, List.mem_cons, List.not_mem_nil, or_false] at hmem
    rcases hmem with h1 | h1 | h1 | h1 | h1 | h1 <;> (subst h1; omega)

/-- C9: the large-position bot's `handleTransaction` on a transaction
containing one `Work` event.  If the event's vault address is in the
vault map and its loan exceeds the configured threshold, exactly one
alert record is produced and its metadata carries the position id, the
loan amount, and the vault address; if the loan is at or below the
threshold, or the vault address is not in the map, no alert is
produced. -/
theorem handleTransaction_work_event (ev : WorkEvent) :
    (∀ t, vaultsMapGet VAULTS_MAP ev.address = some t → t < ev.loan →
      handleTransaction VAULTS_MAP [ev] =
        [createFinding ev.id ev.loan ev.address] ∧
      (createFinding ev.id ev.loan ev.address).positionId = toString ev.id ∧
      (createFinding ev.id ev.loan ev.address).loanAmount = toString ev.loan ∧
      (createFinding ev.id ev.loan ev.address).vault = ev.address) ∧
    (∀ t, vaultsMapGet VAULTS_MAP ev.address = some t → ev.loan ≤ t →
      handleTransaction VAULTS_MAP [ev] = []) ∧
    (vaultsMapGet VAULTS_MAP ev.address = none →
      handleTransaction VAULTS_MAP [ev] = []) := by
  refine ⟨?_, ?_, ?_⟩
  · intro t ht hlt
    have hpos := vaults_pos ev.address t ht
    refine ⟨?_, rfl, rfl, rfl⟩
    simp [handleTransaction, ht, hpos, hlt]
  · intro t ht hle
    simp [handleTransaction, ht, Nat.not_lt.mpr hle]
  · intro h
    simp [handleTransaction, h]

theorem handleTransaction_work_event_witness :
    handleTransaction VAULTS_MAP
        [⟨"0x7c9e73d4c71dae564d41f78d56439bb4ba87592f", 1,
          100000000000000000000000⟩] =
      [createFinding 1 100000000000000000000000
        "0x7c9e73d4c71dae564d41f78d56439bb4ba87592f"] ∧
    handleTransaction VAULTS_MAP
        [⟨"0x7c9e73d4c71dae564d41f78d56439bb4ba87592f", 1, 30⟩] = [] ∧
    handleTransaction VAULTS_MAP
        [⟨"0x00000000000000000000000000000000deadbeef", 1,
          100000000000000000000000⟩] = [] :=
  ⟨((handleTransaction_work_event _).1 99999999999999991611392
      (by decide) (by decide)).1,
   (handleTransaction_work_event _).2.1 99999999999999991611392
      (by decide) (by decide),
   (handleTransaction_work_event _).2.2 (by decide)⟩

end LargePosition

end Forta


